import Mathlib

/-!
Shallow embedding of `tefla/core/special_fn.py` and proofs of the spec claims.

The module under verification builds TensorFlow graphs.  We embed:
* the custom-gradient wrapper `_fn_with_custom_grad` and its inner
  `custom_grad_fn` / `identity` Defun, over an arbitrary tensor type;
* `format_input_left_padding` at the level of shapes and padding amounts;
* `saturating_sigmoid` over the reals;
* `conv2d_gru` both at value level (pointwise tensor semantics, with the
  external `dilated_conv2d` primitive abstracted as a parameter) and at
  shape level; `conv2d_lstm` at shape level.

Python failure modes (ValueError, AssertionError, KeyError, NameError) are
embedded as an error type, and fallible code returns `Except`.
-/

/-- Python exception classes that the embedded code can raise. -/
inductive PyErr where
  | valueError
  | assertionError
  | keyError
  | nameError
  deriving DecidableEq

section CustomGrad

variable {α : Type}

/-- Signature of the user-supplied gradient function of
`fn_with_custom_grad`: `(inputs, variables, outputs, output_grads) ->
(grad_inputs, grad_vars)`, all lists of tensors. -/
def GradFn (α : Type) : Type :=
  List α → List α → List α → List α → List α × List α

/-- Embedding of the inner `identity` Defun body of `_fn_with_custom_grad`
(src line 92-94): given all Defun arguments (inputs ++ train_vars ++
outputs), drop the first `len(inputs) + len(train_vars)` and pass the
remaining outputs through `tf.identity` (the identity map on values). -/
def identityDefun (numInputs numVars : Nat) (args : List α) : List α :=
  (args.drop (numInputs + numVars)).map id

/-- Embedding of `custom_grad_fn` (src lines 69-81).  `opInputs` models
`op.inputs`, `dys` the incoming output gradients; `numInputs`, `trainVars`
and `outputs` are the values captured from the enclosing
`_fn_with_custom_grad` closure.  The two Python `assert` statements become
`Except.error .assertionError`; the returned tuple
`grad_inputs + grad_vars + [None]*len(fn_outputs)` is a list of
`Option α` (with `none` for Python `None`). -/
def custom_grad_fn (grad_fn : GradFn α) (numInputs : Nat)
    (trainVars outputs : List α) (opInputs dys : List α) :
    Except PyErr (List (Option α)) :=
  let fn_inputs := opInputs.take numInputs
  let fn_vars := (opInputs.drop numInputs).take trainVars.length
  let fn_outputs := opInputs.drop (numInputs + trainVars.length)
  if fn_outputs.length = outputs.length then
    if fn_outputs.length = dys.length then
      let r := grad_fn fn_inputs fn_vars fn_outputs dys
      .ok (r.1.map some ++ r.2.map some ++ List.replicate fn_outputs.length none)
    else .error .assertionError
  else .error .assertionError

/-- Embedding of the forward pass of `_fn_with_custom_grad`
(src lines 35-97).  `fn` is the wrapped forward function, `inputs` the
argument list, `trainVars` the variables created while running `fn`
(captured from the variable scope).  When `grad_fn` is present the result
is the `identity` Defun applied to `inputs + train_vars + outputs`, which
passes the outputs through unchanged; when it is absent the outputs are
returned directly. -/
def fn_with_custom_grad_forward (fn : List α → List α) (inputs trainVars : List α)
    (grad_fn : Option (GradFn α)) : List α :=
  let outputs := fn inputs
  match grad_fn with
  | none => outputs
  | some _ => identityDefun inputs.length trainVars.length (inputs ++ trainVars ++ outputs)

/-- Embedding of the backward pass of the wrapper: by the semantics of
`function.Defun` with `python_grad_func`, the gradient delivered to the
i-th Defun input is the i-th component of the tuple returned by
`custom_grad_fn`; the Defun inputs are `inputs + train_vars + outputs`
(src line 96), so the gradients with respect to the original `inputs` are
the first `len(inputs)` components. -/
def fn_with_custom_grad_input_grads (fn : List α → List α)
    (inputs trainVars : List α) (grad_fn : GradFn α) (dys : List α) :
    Except PyErr (List (Option α)) :=
  (custom_grad_fn grad_fn inputs.length trainVars (fn inputs)
      (inputs ++ trainVars ++ fn inputs) dys).map (fun l => l.take inputs.length)

end CustomGrad

section ShapeModel

/-- The `filter_size` keyword argument as it can appear in `kwargs`:
absent from the dict, present but `None`, a single int (duplicated to
both spatial axes, src lines 108-109), or a pair. -/
inductive FilterArg where
  | absent
  | noneVal
  | int (n : Nat)
  | pair (a b : Nat)
  deriving DecidableEq

/-- The two filter dimensions, after the int-to-pair normalization of src
lines 108-109 (only meaningful for `.int` and `.pair`). -/
def filterPair : FilterArg → Nat × Nat
  | .int n => (n, n)
  | .pair a b => (a, b)
  | _ => (0, 0)

/-- Embedding of `format_input_left_padding` (src lines 100-123).
`staticShape` models `inputs.get_shape()`: `none` for unknown rank, and
each dimension `Option Nat` (`none` for an unknown dimension); `dynShape`
models the runtime shape `tf.shape(inputs)`.  Results are the padded
runtime shape, the `tf.pad` padding spec (pairs of amounts before/after
each axis) and the `padding` entry of the returned kwargs.  A missing
`filter_size` key raises `KeyError` at the subscript `kwargs['filter_size']`
(src line 106) before the `assert` can fail; a present `None` value fails
that assert; an even filter dimension fails the assert on src line 112. -/
def format_input_left_padding (staticShape : Option (List (Option Nat)))
    (dynShape : List Nat) (filter_size : FilterArg)
    (dilation_rate : Option (Nat × Nat)) :
    Except PyErr (List Nat × List (Nat × Nat) × String) :=
  match staticShape with
  | none => .error .valueError
  | some ss =>
    if ss.length ≠ 4 then .error .valueError
    else match filter_size with
      | .absent => .error .keyError
      | .noneVal => .error .assertionError
      | fs =>
        let f := filterPair fs
        let d := dilation_rate.getD (1, 1)
        if f.1 % 2 = 1 ∧ f.2 % 2 = 1 then
          let height_padding := 2 * (f.1 / 2) * d.1
          let cond_padding := if dynShape.getD 2 0 = 1 then 0
            else 2 * (f.2 / 2) * d.2
          let width_padding := if ss.getD 2 none = some 1 then 0 else cond_padding
          let padding := [(0, 0), (height_padding, 0), (width_padding, 0), (0, 0)]
          let padded := [dynShape.getD 0 0, dynShape.getD 1 0 + height_padding,
                         dynShape.getD 2 0 + width_padding, dynShape.getD 3 0]
          .ok (padded, padding, "VALID")
        else .error .assertionError

/-- Modelled from the spec: the convolution primitive `dilated_conv2d` is
imported from the excluded sibling module `tefla.core.layers` (spec
sections 1 and 6) and treated as an opaque numeric-framework primitive;
its output-shape semantics at unit stride are the framework's standard
ones, which spec section 8 relies on: "SAME" preserves each spatial
dimension, "VALID" yields `in − (filter − 1)·dilation`, the channel
dimension becomes `n_output_channels`, and batch is preserved. -/
def dilated_conv2d_shape (s : List Nat) (n_output_channels : Nat)
    (filter : Nat × Nat) (dilation : Nat × Nat) (padding : String) : List Nat :=
  if padding = "VALID" then
    [s.getD 0 0, s.getD 1 0 - (filter.1 - 1) * dilation.1,
     s.getD 2 0 - (filter.2 - 1) * dilation.2, n_output_channels]
  else
    [s.getD 0 0, s.getD 1 0, s.getD 2 0, n_output_channels]

/-- Shape semantics of `conv2d_v2` (src lines 188-190): when the `padding`
keyword is "LEFT" the input first passes through
`format_input_left_padding` (whose returned kwargs force "VALID"), then
`dilated_conv2d` runs; otherwise `dilated_conv2d` runs directly with the
given padding.  `dilation_rate` is the value under the `dilation_rate`
kwargs key if present (the padding transform reads only that key), while
`dilation` is the rate the convolution itself uses. -/
def conv2d_v2_shape (s : List Nat) (n_output_channels : Nat)
    (filter_size : FilterArg) (dilation_rate : Option (Nat × Nat))
    (dilation : Nat × Nat) (padding : String) : Except PyErr (List Nat) :=
  if padding = "LEFT" then do
    let r ← format_input_left_padding (some (s.map some)) s filter_size dilation_rate
    pure (dilated_conv2d_shape r.1 n_output_channels (filterPair filter_size) dilation r.2.2)
  else
    pure (dilated_conv2d_shape s n_output_channels (filterPair filter_size) dilation padding)

/-- Elementwise broadcasting of two dimensions, TensorFlow semantics:
equal dimensions combine, and a dimension of 1 stretches to the other. -/
def broadcastDim (a b : Nat) : Option Nat :=
  if a = b then some a else if a = 1 then some b else if b = 1 then some a else none

/-- Broadcast two shapes of equal rank, dimension by dimension. -/
def broadcastDims : List Nat → List Nat → Option (List Nat)
  | [], [] => some []
  | a :: s, b :: t => do
      let d ← broadcastDim a b
      let r ← broadcastDims s t
      pure (d :: r)
  | _, _ => none

/-- Broadcast two shapes; a graph-construction `ValueError` if the ranks
differ or any pair of dimensions is incompatible. -/
def broadcastShape (s t : List Nat) : Except PyErr (List Nat) :=
  match broadcastDims s t with
  | some r => .ok r
  | none => .error .valueError

/-- Shape semantics of `conv2d_gru` (src lines 234-242): three
convolutions through `conv2d_v2` (for `reset`, `gate` and `candidate`),
elementwise products `reset * inputs`, `gate * inputs`,
`(1 - gate) * candidate` and the final sum, with `saturating_sigmoid`,
`tanh` and `1 - _` preserving shapes.  The GRU's kwargs carry `dilation`,
not `dilation_rate`, so the padding transform would see no
`dilation_rate` key. -/
def conv2d_gru_shape (s : List Nat) (n_output_channels : Nat)
    (filter_size : FilterArg) (dilation : Nat × Nat) (padding : String) :
    Except PyErr (List Nat) := do
  let reset ← conv2d_v2_shape s n_output_channels filter_size none dilation padding
  let gate ← conv2d_v2_shape s n_output_channels filter_size none dilation padding
  let ri ← broadcastShape reset s
  let candidate ← conv2d_v2_shape ri n_output_channels filter_size none dilation padding
  let gi ← broadcastShape gate s
  let gc ← broadcastShape gate candidate
  broadcastShape gi gc

/-- Shape semantics of `conv2d_lstm` (src lines 286-291).  The body first
builds `gates` via `conv2d_v2` with `4 * n_output_channels` output
channels, then evaluates `layer_norm(gates, 4 * n_ouput_channels)`; the
name `n_ouput_channels` (note the typo) is bound neither in the function
scope nor at module level, and `x` on the following line is likewise
unbound, so Python raises `NameError` before any tensor is returned. -/
def conv2d_lstm_shape (s : List Nat) (n_output_channels : Nat)
    (filter_size : FilterArg) (dilation : Nat × Nat) (padding : String) :
    Except PyErr (List Nat) := do
  let _gates ← conv2d_v2_shape s (4 * n_output_channels) filter_size none dilation padding
  .error .nameError

end ShapeModel

section RealModel

/-- The logistic sigmoid `tf.sigmoid`, over the reals. -/
noncomputable def sigmoid (x : ℝ) : ℝ := 1 / (1 + Real.exp (-x))

/-- Embedding of `saturating_sigmoid` (src lines 126-130):
`tf.minimum(1.0, tf.maximum(0.0, 1.2 * sigmoid(x) - 0.1))`. -/
noncomputable def saturating_sigmoid (x : ℝ) : ℝ :=
  min 1 (max 0 (1.2 * sigmoid x - 0.1))

/-- A rank-4 tensor as a real value at every (batch, height, width,
channel) index; elementwise operations are pointwise. -/
def Tensor : Type := Nat × Nat × Nat × Nat → ℝ

/-- Pointwise `saturating_sigmoid` on tensors. -/
noncomputable def saturating_sigmoid_t (t : Tensor) : Tensor :=
  fun ix => saturating_sigmoid (t ix)

/-- Pointwise `tf.tanh` on tensors. -/
noncomputable def tanh_t (t : Tensor) : Tensor :=
  fun ix => Real.tanh (t ix)

/-- Value-level embedding of `conv2d_gru` (src lines 234-242).  The local
`conv2d_fn` closure (a `conv2d_v2` call whose external convolution
primitive is excluded from this repository's sources) is abstracted as
`conv`, applied to the input tensor, the variable-scope `name` and the
bias initializer `bias_start`; the remaining configuration (filter size,
padding, dilation) is constant across the three calls of one invocation.
The gate arithmetic is pointwise on tensors. -/
noncomputable def conv2d_gru (conv : Tensor → String → ℝ → Tensor)
    (inputs : Tensor) : Tensor :=
  let reset := saturating_sigmoid_t (conv inputs "reset" 1)
  let gate := saturating_sigmoid_t (conv inputs "gate" 1)
  let candidate := tanh_t (conv (fun ix => reset ix * inputs ix) "candidate" 0)
  fun ix => gate ix * inputs ix + (1 - gate ix) * candidate ix

end RealModel

section DefunName

/-- Decimal formatting of a natural number, as Python's `"%d"` does:
most-significant digit first, and 0 prints as "0". -/
def decFormat (n : Nat) : String :=
  if n = 0 then "0" else ⟨(Nat.digits 10 n).reverse.map Nat.digitChar⟩

/-- The Defun name built on src line 89:
`"identity_custom_grad%d" % random.randint(1, 10**9)`, as a function of
the drawn integer. -/
def defunName (n : Nat) : String :=
  "identity_custom_grad" ++ decFormat n

/-- One invocation of the wrapper with an explicit drawn identifier: the
registered Defun name together with the forward result.  The drawn
integer enters only the name (src line 89); the values computed do not
depend on it. -/
def fn_with_custom_grad_invocation {α : Type} (fn : List α → List α)
    (inputs trainVars : List α) (grad_fn : GradFn α) (drawn : Nat) :
    String × List α :=
  (defunName drawn, fn_with_custom_grad_forward fn inputs trainVars (some grad_fn))

end DefunName

section CustomGradTheorems

/-- Dropping the inputs and variables segment of the Defun argument list
leaves the outputs segment. -/
lemma drop_inputs_vars {α : Type} (inputs trainVars outs : List α) :
    (inputs ++ trainVars ++ outs).drop (inputs.length + trainVars.length) = outs := by
  rw [← List.length_append]
  exact List.drop_left _ _

/-- Taking the first `len(inputs)` Defun arguments recovers the inputs. -/
lemma take_inputs {α : Type} (inputs trainVars outs : List α) :
    (inputs ++ trainVars ++ outs).take inputs.length = inputs := by
  rw [List.append_assoc]
  exact List.take_left _ _

/-- The middle segment of the Defun argument list is the variables. -/
lemma take_vars {α : Type} (inputs trainVars outs : List α) :
    ((inputs ++ trainVars ++ outs).drop inputs.length).take trainVars.length = trainVars := by
  rw [List.append_assoc, List.drop_left]
  exact List.take_left _ _

/-- The wrapped forward pass returns exactly `fn(*inputs)`: the inner
Defun passes the outputs segment through `tf.identity`. -/
lemma forward_eq {α : Type} (fn : List α → List α) (inputs trainVars : List α)
    (g : GradFn α) :
    fn_with_custom_grad_forward fn inputs trainVars (some g) = fn inputs := by
  simp [fn_with_custom_grad_forward, identityDefun, drop_inputs_vars]

/-- The gradients the wrapper delivers to the original inputs are exactly
the `grad_inputs` component returned by `grad_fn`. -/
lemma input_grads_eq {α : Type} (fn : List α → List α) (inputs trainVars : List α)
    (g : GradFn α) (dys gi gv : List α)
    (hg : g inputs trainVars (fn inputs) dys = (gi, gv))
    (hlen : dys.length = (fn inputs).length)
    (hgi : gi.length = inputs.length) :
    fn_with_custom_grad_input_grads fn inputs trainVars g dys = .ok (gi.map some) := by
  unfold fn_with_custom_grad_input_grads custom_grad_fn
  rw [take_inputs, take_vars, drop_inputs_vars]
  simp only [hg]
  rw [if_pos trivial, if_pos hlen.symm]
  simp only [Except.map]
  congr 1
  have h1 : (gi.map some).length = inputs.length := by simp [hgi]
  rw [List.append_assoc]
  exact List.take_left' h1

/-- Claim C1: with a gradient override present, the wrapper's forward
result is numerically identical to `fn(*inputs)`, the gradient delivered
to the inputs is exactly the `grad_inputs` list `grad_fn` returns, and in
particular for `fn` the identity and `grad_fn` returning a fixed constant
list, the computed input gradient is that constant for every input,
independent of the true derivative of `fn`. -/
theorem fn_with_custom_grad_overrides :
    ∀ (α : Type) (fn : List α → List α) (inputs trainVars : List α) (g : GradFn α),
      fn_with_custom_grad_forward fn inputs trainVars (some g) = fn inputs ∧
      (∀ dys gi gv : List α,
        g inputs trainVars (fn inputs) dys = (gi, gv) →
        dys.length = (fn inputs).length →
        gi.length = inputs.length →
        fn_with_custom_grad_input_grads fn inputs trainVars g dys = .ok (gi.map some)) ∧
      (∀ c dys : List α, c.length = inputs.length → dys.length = inputs.length →
        fn_with_custom_grad_input_grads (fun l => l) inputs trainVars
          (fun _ _ _ _ => (c, [])) dys = .ok (c.map some)) := by
  intro α fn inputs trainVars g
  refine ⟨forward_eq fn inputs trainVars g, ?_, ?_⟩
  · intro dys gi gv hg hlen hgi
    exact input_grads_eq fn inputs trainVars g dys gi gv hg hlen hgi
  · intro c dys hc hd
    exact input_grads_eq (fun l => l) inputs trainVars _ dys c [] rfl hd hc

/-- Witness for C1: squaring forward function with constant gradient 7 on
the input 5 — the forward value is 25 and the computed input gradient is
7, not the true derivative 10. -/
theorem fn_with_custom_grad_overrides_witness :
    fn_with_custom_grad_forward (fun l => l.map (fun x => x * x)) [(5 : Int)] []
      (some (fun _ _ _ _ => ([7], []))) = [25] ∧
    fn_with_custom_grad_input_grads (fun l => l.map (fun x => x * x)) [(5 : Int)] []
      (fun _ _ _ _ => ([7], [])) [3] = .ok [some 7] ∧
    fn_with_custom_grad_input_grads (fun l => l) [(5 : Int)] []
      (fun _ _ _ _ => ([7], [])) [3] = .ok [some 7] := by
  obtain ⟨h1, h2, h3⟩ := fn_with_custom_grad_overrides Int (fun l => l.map (fun x => x * x))
    [5] [] (fun _ _ _ _ => ([7], []))
  exact ⟨by rw [h1]; rfl, h2 [3] [7] [] rfl rfl rfl, h3 [7] [3] rfl rfl⟩

/-- Claim C8: during the backward pass, if the number of output tensors
recovered from the registered operation differs from the number of
forward outputs, or from the number of supplied output-gradients, the
wrapper fails with a fatal assertion error; under the matching-count
precondition neither assertion fires and a gradient tuple is produced. -/
theorem custom_grad_fn_asserts :
    ∀ (α : Type) (g : GradFn α) (numInputs : Nat) (trainVars outputs opInputs dys : List α),
      ((opInputs.drop (numInputs + trainVars.length)).length ≠ outputs.length ∨
        (opInputs.drop (numInputs + trainVars.length)).length ≠ dys.length →
        custom_grad_fn g numInputs trainVars outputs opInputs dys = .error .assertionError) ∧
      ((opInputs.drop (numInputs + trainVars.length)).length = outputs.length →
        (opInputs.drop (numInputs + trainVars.length)).length = dys.length →
        ∃ r, custom_grad_fn g numInputs trainVars outputs opInputs dys = .ok r) := by
  intro α g numInputs trainVars outputs opInputs dys
  constructor
  · intro h
    simp only [custom_grad_fn]
    rcases h with h | h
    · rw [if_neg h]
    · by_cases h2 : (opInputs.drop (numInputs + trainVars.length)).length = outputs.length
      · rw [if_pos h2, if_neg h]
      · rw [if_neg h2]
  · intro h1 h2
    simp only [custom_grad_fn]
    rw [if_pos h1, if_pos h2]
    exact ⟨_, rfl⟩

/-- Witness for C8: a one-output operation with zero recorded forward
outputs trips the assertion, and matching counts produce a gradient
tuple. -/
theorem custom_grad_fn_asserts_witness :
    custom_grad_fn (fun _ _ _ _ => ([], [])) 0 [] ([] : List Int) [0] [] = .error .assertionError ∧
    ∃ r, custom_grad_fn (fun _ _ _ _ => ([], [])) 0 [] ([0] : List Int) [0] [0] = .ok r := by
  constructor
  · exact (custom_grad_fn_asserts Int _ 0 [] [] [0] []).1 (Or.inl (by decide))
  · exact (custom_grad_fn_asserts Int _ 0 [] [0] [0] [0]).2 (by decide) (by decide)

end CustomGradTheorems

section ShapeTheorems

/-- The left-padding transform on a fully known rank-4 shape with an odd
filter pair: padding amounts, padded shape, and the forced "VALID" mode. -/
lemma format_input_left_padding_eq (b h w c fh fw dh dw : Nat)
    (h1 : fh % 2 = 1) (h2 : fw % 2 = 1) :
    format_input_left_padding (some [some b, some h, some w, some c]) [b, h, w, c]
        (.pair fh fw) (some (dh, dw)) =
      .ok ([b, h + 2 * (fh / 2) * dh, w + (if w = 1 then 0 else 2 * (fw / 2) * dw), c],
           [(0, 0), (2 * (fh / 2) * dh, 0), ((if w = 1 then 0 else 2 * (fw / 2) * dw), 0), (0, 0)],
           "VALID") := by
  simp only [format_input_left_padding, filterPair]
  norm_num [h1, h2]
  by_cases hw : w = 1 <;> simp [hw]

/-- Claim C3: for every rank-4 input with odd filter sizes `[fh, fw]` and
dilation rates `[dh, dw]`, `format_input_left_padding` pads only the
height and width axes and only before the data — the padding spec is
`[[0,0],[2*(fh/2)*dh,0],[wp,0],[0,0]]` with `wp = 2*(fw/2)*dw` except
`wp = 0` when the input width is 1 — and the returned kwargs carry
padding "VALID". -/
theorem format_input_left_padding_spec :
    ∀ b h w c fh fw dh dw : Nat, fh % 2 = 1 → fw % 2 = 1 →
      format_input_left_padding (some [some b, some h, some w, some c]) [b, h, w, c]
          (.pair fh fw) (some (dh, dw)) =
        .ok ([b, h + 2 * (fh / 2) * dh, w + (if w = 1 then 0 else 2 * (fw / 2) * dw), c],
             [(0, 0), (2 * (fh / 2) * dh, 0), ((if w = 1 then 0 else 2 * (fw / 2) * dw), 0), (0, 0)],
             "VALID") :=
  fun b h w c fh fw dh dw h1 h2 => format_input_left_padding_eq b h w c fh fw dh dw h1 h2

/-- Witness for C3 at shape `[1,4,5,2]`, filter `(3,5)`, dilation `(2,3)`:
height padding 4, width padding 12, both entirely before the data. -/
theorem format_input_left_padding_spec_witness :
    format_input_left_padding (some [some 1, some 4, some 5, some 2]) [1, 4, 5, 2]
        (.pair 3 5) (some (2, 3)) =
      .ok ([1, 8, 17, 2], [(0, 0), (4, 0), (12, 0), (0, 0)], "VALID") := by
  simpa using format_input_left_padding_spec 1 4 5 2 3 5 2 3 rfl rfl

/-- Counterexample to C4 as stated: on a `[1,5,5,1]` input with filter 3
and dilation 1, left padding followed by "VALID" convolution produces
output spatial dimensions 5×5 — equal to the input — not the claimed
`input − (filter − 1)·dilation = 3`. -/
theorem left_padding_valid_conv_shape_claim_fails :
    conv2d_v2_shape [1, 5, 5, 1] 7 (.pair 3 3) (some (1, 1)) (1, 1) "LEFT" = .ok [1, 5, 5, 7] ∧
    (5 : Nat) ≠ 5 - (3 - 1) * 1 := by
  constructor
  · rfl
  · decide

/-- Claim C4 as amended: the left-padding transform followed by a "VALID"
convolution yields output spatial dimensions equal to the *padded* input
minus `(filter − 1)·dilation`, which equals the original input spatial
dimensions exactly; only the width axis of a width-1 input (which gets no
padding) follows the unpadded "VALID" formula `w − (fw − 1)·dw`. -/
theorem left_padding_valid_conv_preserves_shape :
    ∀ b h w c nOut fh fw dh dw : Nat, fh % 2 = 1 → fw % 2 = 1 →
      conv2d_v2_shape [b, h, w, c] nOut (.pair fh fw) (some (dh, dw)) (dh, dw) "LEFT" =
        .ok [b, h, if w = 1 then w - (fw - 1) * dw else w, nOut] := by
  intro b h w c nOut fh fw dh dw h1 h2
  simp only [conv2d_v2_shape, List.map]
  rw [if_pos trivial, format_input_left_padding_eq b h w c fh fw dh dw h1 h2]
  have e1 : 2 * (fh / 2) = fh - 1 := by omega
  have e2 : 2 * (fw / 2) = fw - 1 := by omega
  simp only [Bind.bind, Except.bind, dilated_conv2d_shape, filterPair]
  rw [if_pos trivial]
  by_cases hw : w = 1
  · simp [hw, e1, Pure.pure, Except.pure]
  · simp [hw, e1, e2, Pure.pure, Except.pure]

/-- Witness for amended C4: a `[2,6,7,3]` input with filter `(3,5)` and
dilation `(1,2)` keeps its 6×7 spatial extent through LEFT padding plus
"VALID" convolution. -/
theorem left_padding_valid_conv_preserves_shape_witness :
    conv2d_v2_shape [2, 6, 7, 3] 4 (.pair 3 5) (some (1, 2)) (1, 2) "LEFT" = .ok [2, 6, 7, 4] := by
  simpa using left_padding_valid_conv_preserves_shape 2 6 7 3 4 3 5 1 2 rfl rfl

/-- Counterexample to C2 as stated: on a rank-4 input with 3 channels,
`conv2d_gru` configured with 5 output channels fails with a shape
`ValueError` in the gating arithmetic instead of returning a tensor, and
`conv2d_lstm` aborts with an unbound-name `NameError` on every input, so
neither "returns a tensor" for every rank-4 same-padding configuration. -/
theorem conv2d_cells_shape_claim_fails :
    conv2d_gru_shape [1, 4, 4, 3] 5 (.int 3) (1, 1) "SAME" = .error .valueError ∧
    conv2d_lstm_shape [1, 4, 4, 3] 3 (.int 3) (1, 1) "SAME" = .error .nameError := by
  constructor <;> rfl

/-- Claim C2 as amended: under same padding, `conv2d_gru` on a rank-4
input whose channel count equals the configured `n_output_channels`
returns a tensor with unchanged spatial dimensions and
`n_output_channels` channels; `conv2d_lstm` never returns a tensor — it
aborts with the unbound-name error. -/
theorem conv2d_gru_shape_same_padding :
    ∀ b h w nOut : Nat, ∀ fs : FilterArg, ∀ d : Nat × Nat,
      conv2d_gru_shape [b, h, w, nOut] nOut fs d "SAME" = .ok [b, h, w, nOut] ∧
      (∀ s : List Nat, ∀ c : Nat, conv2d_lstm_shape s c fs d "SAME" = .error .nameError) := by
  intro b h w nOut fs d
  constructor
  · simp only [conv2d_gru_shape, conv2d_v2_shape, dilated_conv2d_shape]
    norm_num
    simp [broadcastShape, broadcastDims, broadcastDim, Bind.bind, Except.bind, Pure.pure,
      Except.pure]
  · intro s c
    simp [conv2d_lstm_shape, conv2d_v2_shape, dilated_conv2d_shape, Bind.bind, Except.bind,
      Pure.pure, Except.pure]

/-- Claim C7: `conv2d_lstm` never returns a tensor, and whenever its
`conv2d_v2` call succeeds — so control reaches the gate-normalization
step `layer_norm(gates, 4 * n_ouput_channels)` — it aborts with the
unbound-name `NameError`. -/
theorem conv2d_lstm_unbound_name :
    ∀ (s : List Nat) (nOut : Nat) (fs : FilterArg) (d : Nat × Nat) (p : String),
      (∀ gates : List Nat, conv2d_v2_shape s (4 * nOut) fs none d p = .ok gates →
        conv2d_lstm_shape s nOut fs d p = .error .nameError) ∧
      (∀ r : List Nat, conv2d_lstm_shape s nOut fs d p ≠ .ok r) := by
  intro s nOut fs d p
  constructor
  · intro gates hg
    simp [conv2d_lstm_shape, hg, Bind.bind, Except.bind]
  · intro r
    simp only [conv2d_lstm_shape, Bind.bind, Except.bind]
    cases h : conv2d_v2_shape s (4 * nOut) fs none d p <;> simp

/-- Witness for C7 on a concrete same-padding configuration that does
reach the gate-normalization step. -/
theorem conv2d_lstm_unbound_name_witness :
    conv2d_lstm_shape [1, 2, 2, 3] 3 (.int 3) (1, 1) "SAME" = .error .nameError :=
  (conv2d_lstm_unbound_name [1, 2, 2, 3] 3 (.int 3) (1, 1) "SAME").1 [1, 2, 2, 12] rfl

/-- Counterexample to C9 as stated: with a rank-4 input and the
`filter_size` key missing from kwargs, the subscript
`kwargs['filter_size']` raises `KeyError` — a lookup error, not the
claimed fatal assertion. -/
theorem format_input_left_padding_error_claim_fails :
    format_input_left_padding (some [some 1, some 2, some 3, some 4]) [1, 2, 3, 4] .absent none =
      .error .keyError ∧
    PyErr.keyError ≠ PyErr.assertionError := by
  constructor
  · rfl
  · decide

/-- Claim C9 as amended: `format_input_left_padding` raises `ValueError`
exactly when the static shape is absent or not rank 4; with a rank-4
shape it raises `KeyError` exactly when the `filter_size` key is missing,
and a fatal assertion exactly when `filter_size` is present but `None` or
has an even dimension; with a rank-4 shape and a present odd filter size
it raises no error. -/
theorem format_input_left_padding_errors :
    ∀ (static : Option (List (Option Nat))) (dyn : List Nat) (fs : FilterArg)
      (dr : Option (Nat × Nat)),
      (format_input_left_padding static dyn fs dr = .error .valueError ↔
        static = none ∨ ∃ ss, static = some ss ∧ ss.length ≠ 4) ∧
      (format_input_left_padding static dyn fs dr = .error .keyError ↔
        (∃ ss, static = some ss ∧ ss.length = 4) ∧ fs = .absent) ∧
      (format_input_left_padding static dyn fs dr = .error .assertionError ↔
        (∃ ss, static = some ss ∧ ss.length = 4) ∧
        (fs = .noneVal ∨ (fs ≠ .absent ∧ fs ≠ .noneVal ∧
          ¬((filterPair fs).1 % 2 = 1 ∧ (filterPair fs).2 % 2 = 1)))) ∧
      ((∃ ss, static = some ss ∧ ss.length = 4) →
        fs ≠ .absent → fs ≠ .noneVal →
        (filterPair fs).1 % 2 = 1 → (filterPair fs).2 % 2 = 1 →
        ∃ r, format_input_left_padding static dyn fs dr = .ok r) := by
  intro static dyn fs dr
  match static with
  | none => simp [format_input_left_padding]
  | some ss =>
    by_cases hlen : ss.length = 4
    · cases fs with
      | absent => simp [format_input_left_padding, hlen]
      | noneVal => simp [format_input_left_padding, hlen]
      | int n =>
        by_cases hodd : n % 2 = 1
        · simp [format_input_left_padding, hlen, filterPair, hodd]
        · simp [format_input_left_padding, hlen, filterPair, hodd]
      | pair a b =>
        by_cases ha : a % 2 = 1
        · by_cases hb : b % 2 = 1
          · simp [format_input_left_padding, hlen, filterPair, ha, hb]
          · simp [format_input_left_padding, hlen, filterPair, ha, hb]
        · simp [format_input_left_padding, hlen, filterPair, ha]
    · simp [format_input_left_padding, hlen]

/-- Witness for amended C9: an unknown static shape gives `ValueError`,
and a rank-4 shape with a present odd filter size succeeds. -/
theorem format_input_left_padding_errors_witness :
    format_input_left_padding none [1, 2, 3, 4] (.pair 3 3) none = .error .valueError ∧
    ∃ r, format_input_left_padding (some [some 1, some 2, some 3, some 4]) [1, 2, 3, 4]
      (.pair 3 3) none = .ok r := by
  constructor
  · exact (format_input_left_padding_errors none [1, 2, 3, 4] (.pair 3 3) none).1.mpr (Or.inl rfl)
  · exact (format_input_left_padding_errors (some [some 1, some 2, some 3, some 4]) [1, 2, 3, 4]
      (.pair 3 3) none).2.2.2 ⟨_, rfl, rfl⟩ (by decide) (by decide) rfl rfl

end ShapeTheorems

section RealTheorems

/-- The logistic sigmoid is monotone non-decreasing. -/
lemma sigmoid_mono {x y : ℝ} (h : x ≤ y) : sigmoid x ≤ sigmoid y := by
  unfold sigmoid
  have hx : (0 : ℝ) < 1 + Real.exp (-y) := by positivity
  have hexp : Real.exp (-y) ≤ Real.exp (-x) := Real.exp_le_exp.mpr (by linarith)
  exact one_div_le_one_div_of_le hx (by linarith)

/-- Claim C5: `saturating_sigmoid x` equals
`min 1 (max 0 (1.2 * sigmoid x - 0.1))`; it is monotone non-decreasing,
bounded in `[0, 1]`, equals exactly 0 whenever `sigmoid x ≤ 1/12` (all
sufficiently negative `x`), and equals exactly 1 whenever
`sigmoid x ≥ 11/12` (all sufficiently positive `x`). -/
theorem saturating_sigmoid_spec :
    (∀ x : ℝ, saturating_sigmoid x = min 1 (max 0 (1.2 * sigmoid x - 0.1))) ∧
    (∀ x y : ℝ, x ≤ y → saturating_sigmoid x ≤ saturating_sigmoid y) ∧
    (∀ x : ℝ, 0 ≤ saturating_sigmoid x ∧ saturating_sigmoid x ≤ 1) ∧
    (∀ x : ℝ, sigmoid x ≤ 1 / 12 → saturating_sigmoid x = 0) ∧
    (∀ x : ℝ, 11 / 12 ≤ sigmoid x → saturating_sigmoid x = 1) := by
  refine ⟨fun x => rfl, ?_, ?_, ?_, ?_⟩
  · intro x y hxy
    unfold saturating_sigmoid
    have h := sigmoid_mono hxy
    exact min_le_min le_rfl (max_le_max le_rfl (by linarith))
  · intro x
    unfold saturating_sigmoid
    constructor
    · exact le_min (by norm_num) (le_max_left 0 _)
    · exact min_le_left 1 _
  · intro x hx
    unfold saturating_sigmoid
    have h1 : 1.2 * sigmoid x - 0.1 ≤ 0 := by nlinarith
    rw [max_eq_left h1]
    norm_num
  · intro x hx
    unfold saturating_sigmoid
    have h1 : (1 : ℝ) ≤ 1.2 * sigmoid x - 0.1 := by nlinarith
    rw [min_eq_left (le_max_of_le_right h1)]

/-- A numeric bound used by the saturation witnesses: `e³ ≥ 11`. -/
lemma exp_three : (11 : ℝ) ≤ Real.exp 3 := by
  have h1 : Real.exp 3 = Real.exp 1 * Real.exp 1 * Real.exp 1 := by
    rw [← Real.exp_add, ← Real.exp_add]
    norm_num
  have h2 := Real.exp_one_gt_d9
  nlinarith

/-- At `x = -3` the sigmoid is already below the lower saturation
threshold `1/12`. -/
lemma sigmoid_neg_three : sigmoid (-3) ≤ 1 / 12 := by
  unfold sigmoid
  rw [neg_neg]
  have h := exp_three
  rw [div_le_div_iff₀ (by positivity) (by norm_num)]
  linarith

/-- At `x = 3` the sigmoid is already above the upper saturation
threshold `11/12`. -/
lemma sigmoid_three : (11 : ℝ) / 12 ≤ sigmoid 3 := by
  unfold sigmoid
  have h := exp_three
  have hpos := Real.exp_pos (3 : ℝ)
  have hneg : Real.exp (-3 : ℝ) = (Real.exp 3)⁻¹ := Real.exp_neg 3
  have hinv : Real.exp 3 * (Real.exp 3)⁻¹ = 1 := mul_inv_cancel₀ (ne_of_gt hpos)
  have hip : (0 : ℝ) < (Real.exp 3)⁻¹ := inv_pos.mpr hpos
  rw [div_le_div_iff₀ (by norm_num) (by positivity), hneg]
  nlinarith

/-- Witness for C5: monotonicity at `0 ≤ 1`, exact saturation to 0 at
`x = -3` and to 1 at `x = 3`. -/
theorem saturating_sigmoid_spec_witness :
    saturating_sigmoid 0 ≤ saturating_sigmoid 1 ∧
    saturating_sigmoid (-3) = 0 ∧ saturating_sigmoid 3 = 1 :=
  ⟨saturating_sigmoid_spec.2.1 0 1 (by norm_num),
   saturating_sigmoid_spec.2.2.2.1 (-3) sigmoid_neg_three,
   saturating_sigmoid_spec.2.2.2.2 3 sigmoid_three⟩

/-- Claim C6: at every tensor position, `conv2d_gru` computes
`gate * input + (1 - gate) * candidate`, where
`gate = saturating_sigmoid(conv(inputs))` from its own "gate" convolution
with bias initialized to 1.0, `reset = saturating_sigmoid(conv(inputs))`
from its own "reset" convolution with bias 1.0, and
`candidate = tanh(conv(reset ⊙ inputs))` from the "candidate" convolution
with bias 0.0, with ⊙ the elementwise product. -/
theorem conv2d_gru_formula :
    ∀ (conv : Tensor → String → ℝ → Tensor) (inputs : Tensor)
      (ix : Nat × Nat × Nat × Nat),
      conv2d_gru conv inputs ix =
        saturating_sigmoid (conv inputs "gate" 1 ix) * inputs ix +
        (1 - saturating_sigmoid (conv inputs "gate" 1 ix)) *
          Real.tanh (conv (fun j => saturating_sigmoid (conv inputs "reset" 1 j) * inputs j)
            "candidate" 0 ix) := by
  intro conv inputs ix
  rfl

end RealTheorems

section DefunNameTheorems

/-- The ten digit characters are pairwise distinct. -/
lemma digitChar_inj_lt : ∀ a < 10, ∀ b < 10, Nat.digitChar a = Nat.digitChar b → a = b := by
  decide

/-- Mapping digits below 10 to their characters is injective on lists. -/
lemma map_digitChar_inj : ∀ l1 l2 : List Nat, (∀ x ∈ l1, x < 10) → (∀ x ∈ l2, x < 10) →
    l1.map Nat.digitChar = l2.map Nat.digitChar → l1 = l2 := by
  intro l1
  induction l1 with
  | nil =>
    intro l2 _ _ h
    cases l2 with
    | nil => rfl
    | cons b t => simp at h
  | cons a t ih =>
    intro l2 h1 h2 h
    cases l2 with
    | nil => simp at h
    | cons b t2 =>
      simp only [List.map_cons, List.cons.injEq] at h
      have ha : a < 10 := h1 a (by simp)
      have hb : b < 10 := h2 b (by simp)
      have hab : a = b := digitChar_inj_lt a ha b hb h.1
      have ht : t = t2 :=
        ih t2 (fun x hx => h1 x (by simp [hx])) (fun x hx => h2 x (by simp [hx])) h.2
      rw [hab, ht]

/-- Decimal formatting is injective on positive integers. -/
lemma decFormat_inj {a b : Nat} (ha : 0 < a) (hb : 0 < b)
    (h : decFormat a = decFormat b) : a = b := by
  unfold decFormat at h
  rw [if_neg (Nat.pos_iff_ne_zero.mp ha), if_neg (Nat.pos_iff_ne_zero.mp hb)] at h
  have hl : (Nat.digits 10 a).reverse.map Nat.digitChar =
      (Nat.digits 10 b).reverse.map Nat.digitChar := congrArg String.data h
  have hr := map_digitChar_inj _ _
    (fun x hx => Nat.digits_lt_base (by norm_num) (List.mem_reverse.mp hx))
    (fun x hx => Nat.digits_lt_base (by norm_num) (List.mem_reverse.mp hx)) hl
  have hd := List.reverse_injective hr
  exact Nat.digits_inj_iff.mp hd

/-- Distinct positive drawn integers give distinct Defun names. -/
lemma defunName_inj {a b : Nat} (ha : 0 < a) (hb : 0 < b) (h : a ≠ b) :
    defunName a ≠ defunName b := by
  intro he
  apply h
  apply decFormat_inj ha hb
  have hdata : ("identity_custom_grad" ++ decFormat a).data =
      ("identity_custom_grad" ++ decFormat b).data := congrArg String.data he
  rw [String.data_append, String.data_append] at hdata
  have := List.append_cancel_left hdata
  exact String.ext this

/-- Counterexample to C10 as stated: the drawn identifier is
`random.randint(1, 10**9)`, so whatever the library PRNG computes, the
seed-to-identifier map takes values among the `10^9` integers
`1..10^9` while the seed space is unbounded.  No such map is injective:
for *every* admissible draw function there is a pair of distinct seeds
drawing the same identifier and therefore registering the very same
Defun name — "no name collision for any pair of seeds" is unsatisfiable.
The outputs half of the claim, by contrast, holds degenerately: the
forward result never depends on the drawn identifier at all. -/
theorem defun_name_collision :
    (∀ randint : Nat → Nat, (∀ s : Nat, 1 ≤ randint s ∧ randint s ≤ 10 ^ 9) →
      ∃ s1 s2 : Nat, s1 ≠ s2 ∧ randint s1 = randint s2 ∧
        defunName (randint s1) = defunName (randint s2)) ∧
    (∀ (randint : Nat → Nat) (s1 s2 : Nat),
      (fn_with_custom_grad_invocation (fun l => l) [(1 : Int)] []
          (fun _ _ _ _ => ([], [])) (randint s1)).2 =
        (fn_with_custom_grad_invocation (fun l => l) [(1 : Int)] []
          (fun _ _ _ _ => ([], [])) (randint s2)).2) := by
  constructor
  · intro r hr
    obtain ⟨s1, s2, hne, heq⟩ := Finite.exists_ne_map_eq_of_infinite
      (fun s : Nat => (⟨r s, lt_of_le_of_lt (hr s).2 (Nat.lt_succ_self _)⟩ : Fin (10 ^ 9 + 1)))
    have hval : r s1 = r s2 := congrArg Fin.val heq
    exact ⟨s1, s2, hne, hval, congrArg defunName hval⟩
  · intro r s1 s2
    rfl

/-- Claim C10 as amended: two invocations whose drawn identifiers differ
(the identifiers are positive, as `randint(1, 10**9)` guarantees) are
registered under distinct Defun names, and the forward outputs of the two
invocations are identical for identical inputs regardless of the drawn
identifier. -/
theorem defun_names_seed_property :
    (∀ (randint : Nat → Nat) (s1 s2 : Nat), 0 < randint s1 → 0 < randint s2 →
      randint s1 ≠ randint s2 → defunName (randint s1) ≠ defunName (randint s2)) ∧
    (∀ (α : Type) (fn : List α → List α) (inputs trainVars : List α) (g : GradFn α)
      (d1 d2 : Nat),
      (fn_with_custom_grad_invocation fn inputs trainVars g d1).2 =
        (fn_with_custom_grad_invocation fn inputs trainVars g d2).2) := by
  constructor
  · intro r s1 s2 h1 h2 hne
    exact defunName_inj h1 h2 hne
  · intro α fn inputs trainVars g d1 d2
    rfl

/-- Witness for amended C10: two seeds whose draws are the distinct
positive identifiers 1 and 2 get distinct Defun names. -/
theorem defun_names_seed_property_witness :
    defunName 1 ≠ defunName 2 :=
  defun_names_seed_property.1 (fun s => s + 1) 0 1 (by decide) (by decide) (by decide)

end DefunNameTheorems
